import Mathlib

/-!
# Verification of the slot-allocation / distributed-locking / process-relay pipeline

Shallow embedding of `core/views.py` (Dispatcharr): the `stream_view` request
orchestrator (slot allocator over account profiles guarded by Redis locks,
URL rewriting via `re.sub`, external process launch) and the `stream_generator`
relay with its `finally` cleanup.

Strings from the Python side are modelled as `List Char` (`Str`); the Redis
lock store as a list of present keys; machine-level details (logging, HTTP
plumbing) are dropped as they carry no spec-relevant behavior.
-/

namespace Dispatcharr

/-- Python strings are modelled as lists of characters. -/
abbrev Str := List Char

/-- The Lock Store: the set of keys currently present in Redis, as a list.
A key is "held" iff it is a member. -/
abbrev Store := List String

/-- Modelled from the spec: `PersistentLock.acquire` (file
`dispatcharr/persistent_lock.py` is imported by `core/views.py` but is not
under `src/`). Spec 4.1 / 6: a single atomic set-if-absent attempt with a
time-to-live; returns true on success and false if another holder is active;
never blocks or retries. -/
def setnx (store : Store) (k : String) : Bool × Store :=
  if store.contains k then (false, store) else (true, k :: store)

/-- Modelled from the spec: `PersistentLock.release`. Spec 4.1: deletes the
key if present; idempotent, never raises. -/
def delKey (store : Store) (k : String) : Store :=
  store.filter (fun x => !(x == k))

/-- A sequence of `n` atomic acquisition attempts on the same key, with no
release in between: because each `setnx` is atomic at the store, any
concurrent interleaving of single attempts is one such sequence. Returns the
list of attempt outcomes and the final store. -/
def acquireRun (store : Store) (k : String) : Nat → List Bool × Store
  | 0 => ([], store)
  | n + 1 =>
    let r := setnx store k
    let rest := acquireRun r.2 k n
    (r.1 :: rest.1, rest.2)

/-! ## Model of Python `re.sub` (the substitution engine used at lines 107/110)

`re.sub(pattern, repl, s)` is modelled position-independently: a compiled
pattern is a matcher applied to each suffix of the subject in turn (leftmost,
non-overlapping scan), together with its number of capture groups. The
replacement template is parsed first — as in CPython, where
`sre_parse.parse_template` runs and validates group references *before* any
matching — so an invalid template is an error (`none`) even when the pattern
never matches. Modelled template syntax: `\\` (literal backslash), `\0`
(NUL octal escape), `\N` / `\NN` group references, `\n`/`\t`/`\r` escapes,
`\` + other ASCII letter = bad-escape error, `\` + other char kept verbatim.
(Three-octal-digit escapes and `\g<...>` references are outside the modelled
subset; no input in this development uses them.) -/

/-- One parsed replacement-template item: a literal character or a
group reference. -/
inductive TItem
  | lit (c : Char)
  | ref (n : Nat)
deriving DecidableEq, Repr

/-- Result of a pattern match attempt at one position: number of characters
consumed and the captured groups (by group number, `none` = did not
participate). -/
structure MatchRes where
  len : Nat
  grp : Nat → Option Str

/-- A compiled pattern's matching behavior, applied to a suffix of the
subject string. -/
abbrev Matcher := Str → Option MatchRes

/-- Numeric value of a digit character. -/
def digitVal (c : Char) : Nat := c.toNat - 48

/-- Fuel-driven worker for `parseTemplate` (the fuel makes the recursion
structural so that concrete instances reduce in the kernel). -/
def parseTemplateF : Nat → Str → Option (List TItem)
  | 0, _ => none
  | _ + 1, [] => some []
  | _ + 1, ['\\'] => none
  | fuel + 1, '\\' :: c :: rest' =>
    if c = '\\' then (parseTemplateF fuel rest').map (.lit '\\' :: ·)
    else if c = '0' then (parseTemplateF fuel rest').map (.lit (Char.ofNat 0) :: ·)
    else if c.isDigit then
      -- a group reference consumes one or two digits
      match rest' with
      | c2 :: rest'' =>
        if c2.isDigit then
          (parseTemplateF fuel rest'').map (.ref (digitVal c * 10 + digitVal c2) :: ·)
        else (parseTemplateF fuel rest').map (.ref (digitVal c) :: ·)
      | [] => some [.ref (digitVal c)]
    else if c = 'n' then (parseTemplateF fuel rest').map (.lit '\n' :: ·)
    else if c = 't' then (parseTemplateF fuel rest').map (.lit '\t' :: ·)
    else if c = 'r' then (parseTemplateF fuel rest').map (.lit '\r' :: ·)
    else if c.isAlpha then none
    else (parseTemplateF fuel rest').map (fun ts => .lit '\\' :: .lit c :: ts)
  | fuel + 1, c :: rest => (parseTemplateF fuel rest).map (.lit c :: ·)

/-- Parse a replacement template; every step consumes at least one
character, so `s.length + 1` fuel always suffices. -/
def parseTemplate (s : Str) : Option (List TItem) := parseTemplateF (s.length + 1) s

/-- All group references in the template lie within the pattern's group
count (CPython raises `invalid group reference` otherwise, at template-parse
time, before any match is attempted). -/
def validRefs (gc : Nat) (t : List TItem) : Bool :=
  t.all fun it => match it with
  | .ref n => decide (n ≤ gc)
  | .lit _ => true

/-- Expand a parsed template against the groups of one match. `none` models
`re.error: unmatched group`. -/
def expandT (grp : Nat → Option Str) : List TItem → Option Str
  | [] => some []
  | .lit c :: rest => (expandT grp rest).map (c :: ·)
  | .ref n :: rest =>
    match grp n with
    | none => none
    | some g => (expandT grp rest).map (g ++ ·)

/-- The leftmost non-overlapping substitution scan of `re.sub` (Python 3.7+
empty-match semantics). `fuel` bounds the loop; every step consumes at least
one character, so `s.length + 1` always suffices. -/
def subScan (m : Matcher) (t : List TItem) : Nat → Str → Option Str
  | 0, _ => none
  | _ + 1, [] =>
    match m [] with
    | some mr => expandT mr.grp t
    | none => some []
  | fuel + 1, c :: rest =>
    match m (c :: rest) with
    | none => (subScan m t fuel rest).map (c :: ·)
    | some mr =>
      match expandT mr.grp t with
      | none => none
      | some e =>
        if mr.len = 0 then (subScan m t fuel rest).map (fun tl => e ++ c :: tl)
        else (subScan m t fuel ((c :: rest).drop mr.len)).map (e ++ ·)

/-- Model of `re.sub(pattern, repl, s)`: parse and validate the template,
then run the scan. `none` models `re.error` escaping to the caller. -/
def reSub (gc : Nat) (m : Matcher) (repl : Str) (s : Str) : Option Str :=
  match parseTemplate repl with
  | none => none
  | some t => if validRefs gc t then subScan m t (s.length + 1) s else none

/-- The compiled pattern `\$(\d+)` of line 107: at a position it matches a
`$` followed by a maximal nonempty run of digits (greedy `\d+`), captured as
group 1. -/
def dollarMatcher : Matcher := fun s =>
  match s with
  | [] => none
  | c :: rest =>
    if c = '$' then
      let ds := rest.takeWhile Char.isDigit
      if ds.isEmpty then none
      else some { len := 1 + ds.length, grp := fun n => if n = 1 then some ds else none }
    else none

/-- The raw replacement string `r'\\\1'` of line 107: the four characters
backslash backslash backslash one. -/
def escReplTemplate : Str := ['\\', '\\', '\\', '1']

/-- Line 107: `safe_replace_pattern = re.sub(r'\$(\d+)', r'\\\1',
active_profile.replace_pattern)`. -/
def safe_replace_pattern (replacePattern : Str) : Option Str :=
  reSub 1 dollarMatcher escReplTemplate replacePattern

/-- Lines 107/110: the URL rewriting step — dollar-escape the profile's
replace pattern, then `re.sub(search_pattern, safe_replace_pattern,
input_url)`. `gc`/`m` are the compiled search pattern's group count and
matcher. -/
def rewrite (gc : Nat) (m : Matcher) (replacePattern inputUrl : Str) : Option Str :=
  match safe_replace_pattern replacePattern with
  | none => none
  | some safe => reSub gc m safe inputUrl

/-- A compiled pattern that matches a fixed literal string (no groups):
used to instantiate profile search patterns at concrete inputs. -/
def litMatcher (lit : Str) : Matcher := fun s =>
  if lit.isPrefixOf s then some { len := lit.length, grp := fun _ => none } else none

/-- The compiled pattern `a(b)c`: matches the literal `abc`, capturing the
`b` as group 1. Used to instantiate a concrete search pattern. -/
def abcMatcher : Matcher := fun s =>
  if ['a', 'b', 'c'].isPrefixOf s then
    some { len := 3, grp := fun n => if n = 1 then some ['b'] else none }
  else none

/-- Fuel-driven worker for `escSpec` (the fuel makes the recursion
structural so that concrete instances reduce in the kernel). -/
def escSpecF : Nat → Str → Str
  | 0, _ => []
  | _ + 1, [] => []
  | fuel + 1, c :: rest =>
    if c = '$' then
      let ds := rest.takeWhile Char.isDigit
      if ds.isEmpty then c :: escSpecF fuel rest
      else '\\' :: ds ++ escSpecF fuel (rest.drop ds.length)
    else c :: escSpecF fuel rest

/-- Direct recursive description of what line 107's escaping substitution
does to a replace pattern: every `$` followed by a maximal nonempty digit
run becomes `\` followed by those digits; everything else is copied. -/
def escSpec (s : Str) : Str := escSpecF (s.length + 1) s

/-! ## Data model (spec 3 / source lines 55-66 and 113-130) -/

/-- A delivery profile (`M3UAccountProfile`): identity, flags, capacity and
the URL-rewrite pattern pair. The search pattern is carried in compiled
form: its group count and matcher. -/
structure Profile where
  id : Nat
  is_default : Bool
  is_active : Bool
  max_streams : Nat
  search_gc : Nat
  searchM : Matcher
  replace_pattern : Str

/-- One parsed item of a `StreamProfile.parameters` template for
`str.format(userAgent=..., streamUrl=...)`: literal text, one of the two
known placeholders, or an unknown placeholder (whose formatting raises
`KeyError`). -/
inductive FmtItem
  | lit (s : Str)
  | userAgentPh
  | streamUrlPh
  | badPh
deriving DecidableEq

/-- A playback profile (`StreamProfile`): command, parameters template and
optional user agent. -/
structure StreamProfileM where
  command : Str
  parameters : List FmtItem
  user_agent : Option Str
deriving DecidableEq

/-- A stream: primary URL, optional override URL, and its account's
profile list (`stream.m3u_account.profiles.all()`). -/
structure StreamM where
  url : Str
  custom_url : Option Str
  profilesOfAccount : List Profile

/-- A channel: its streams and its optional playback profile. -/
structure ChannelM where
  streams : List StreamM
  stream_profile : Option StreamProfileM

/-- The request environment: the external collaborators `stream_view`
reads. `channel = none` models `Channel.objects.get` raising;
`coreDefaultStreamProfile = none` models the `CoreSettings` /
`StreamProfile` default lookup of line 117 raising; `defaultUserAgent` is
the resolved `getattr(settings, "DEFAULT_USER_AGENT", "Mozilla/5.0")`;
`popen` is the outcome of `subprocess.Popen` (error payload = the raised
exception); `stdoutChunks` is the launched process's stdout content. -/
structure EnvM where
  channel : Option ChannelM
  coreDefaultStreamProfile : Option StreamProfileM
  defaultUserAgent : Str
  popen : Except Nat Unit
  stdoutChunks : List (List Nat)

/-- The lock key of line 83: `f"lock:{profile.id}:{stream_index}"`. -/
def lockKey (pid idx : Nat) : String :=
  "lock:" ++ toString pid ++ ":" ++ toString idx

/-! ## Slot allocator (lines 68-97) -/

/-- Outcome of the profile loop: a profile with an acquired lock key, an
exhausted scan, or the `AttributeError` raised when the candidate list
contains `None` (no default profile, lines 72-74). -/
inductive AllocResult
  | found (p : Profile) (k : String)
  | exhausted
  | attrError

/-- The inner `while` loop of lines 79-92: starting at slot `idx` with
`remaining` indices left, attempt each key once against the (unchanged)
store; stop at the first free key. Returns the acquired key (if any) and
the ordered list of keys attempted. -/
def trySlots (store : Store) (pid : Nat) : Nat → Nat → Option String × List String
  | _, 0 => (none, [])
  | idx, r + 1 =>
    let k := lockKey pid idx
    if store.contains k then
      let rest := trySlots store pid (idx + 1) r
      (rest.1, k :: rest.2)
    else (some k, [k])

/-- The outer `for profile in [default_profile] + profiles` loop of lines
72-97. A `none` candidate models `default_profile = None`: the loop body
dereferences an attribute of `None` (line 73/74) and raises. Failed
acquisition attempts do not change the store; the scan stops entirely at
the first success. Returns the outcome and the ordered trace of all lock
keys attempted. -/
def allocLoop (store : Store) : List (Option Profile) → AllocResult × List String
  | [] => (.exhausted, [])
  | none :: _ => (.attrError, [])
  | some p :: rest =>
    if p.is_active then
      match trySlots store p.id 1 p.max_streams with
      | (some k, tr) => (.found p k, tr)
      | (none, tr) =>
        let r := allocLoop store rest
        (r.1, tr ++ r.2)
    else allocLoop store rest

/-- Lines 64-66: the candidate list `[default_profile] + profiles`, where
`default_profile = next((obj for obj in m3u_profiles if obj.is_default),
None)` and `profiles` are the non-default profiles in listed order. -/
def candidatesOf (ps : List Profile) : List (Option Profile) :=
  (ps.find? (·.is_default)) :: (ps.filter (fun p => !p.is_default)).map some

/-! ## Orchestrator (lines 32-164) -/

/-- The exceptions that reach the outer `except Exception` handler of line
141 in the modelled flow. -/
inductive PrepErr
  | channelNotFound
  | noneAttr
  | reError
  | settingsLookup
  | formatError
deriving DecidableEq

/-- The caller-visible outcome. Constructor/message correspondence:
`noStreamFound` = "No stream found for this channel.", `noAvailableProfiles`
= "No available profiles for the stream", `errorStarting e` = "Error
starting stream: e", `errorPreparing e` = "Error preparing stream: e",
`streamOk cmd k` = the `StreamingHttpResponse` (content type video/MP2T)
whose generator holds lock key `k`. -/
inductive Response
  | streamOk (cmd : List Str) (k : String)
  | noStreamFound
  | noAvailableProfiles
  | errorStarting (e : Nat)
  | errorPreparing (e : PrepErr)
deriving DecidableEq

/-- An operation against the Lock Store. `PersistentLock` also supports
renewal (spec 4.1: "named, timed, renewable"); this flow never invokes it,
so `renewOp` never occurs in any trace of this model. -/
inductive LockOp
  | setnxOp (key : String) (ttl : Nat) (ok : Bool)
  | renewOp (key : String)
  | delOp (key : String)
deriving DecidableEq

/-- What `stream_view` produces: the response, the store it leaves behind,
the ordered Lock Store operations it performed, and whether the external
process was launched. -/
structure ViewResult where
  resp : Response
  store : Store
  ops : List LockOp
  launched : Bool

/-- The Lock Store operations of an allocation scan: one `SET NX` with
ttl 120 per attempted key (line 84: `PersistentLock(redis_client, lock_key,
lock_timeout=120)`), succeeding exactly on a key absent from the store. -/
def allocOps (store : Store) (trace : List String) : List LockOp :=
  trace.map fun key => .setnxOp key 120 (!(store.contains key))

/-- Python `str.format` on the parameters template (line 126): `none`
models `KeyError` on an unknown placeholder. -/
def formatParams (t : List FmtItem) (userAgent streamUrl : Str) : Option Str :=
  if t.contains .badPh then none
  else some (t.flatMap fun it => match it with
    | .lit s => s
    | .userAgentPh => userAgent
    | .streamUrlPh => streamUrl
    | .badPh => [])

/-- Python `str.split()` with no argument (line 130): split on whitespace
runs, discarding empty pieces. -/
def splitWsAux : Str → Str → List Str
  | [], acc => if acc.isEmpty then [] else [acc.reverse]
  | c :: rest, acc =>
    if c = ' ' ∨ c = '\t' ∨ c = '\n' ∨ c = '\r' then
      if acc.isEmpty then splitWsAux rest [] else acc.reverse :: splitWsAux rest []
    else splitWsAux rest (c :: acc)

/-- `parameters.split()` of line 130. -/
def splitWs (s : Str) : List Str := splitWsAux s []

/-- Lines 104-130: the steps performed after a lock was acquired and
before `subprocess.Popen` — URL rewrite, playback-profile resolution with
the global-default fallback, user-agent resolution (Python `or`, so an
empty string also falls back), parameter formatting and command assembly.
An `error` is an exception propagating to the outer handler of line 141. -/
def afterLockSteps (env : EnvM) (ch : ChannelM) (input_url : Str) (p : Profile) :
    Except PrepErr (List Str) :=
  match rewrite p.search_gc p.searchM p.replace_pattern input_url with
  | none => .error .reError
  | some stream_url =>
    match (match ch.stream_profile with
           | some sp => some sp
           | none => env.coreDefaultStreamProfile) with
    | none => .error .settingsLookup
    | some sp =>
      let user_agent := match sp.user_agent with
        | some u => if u.isEmpty then env.defaultUserAgent else u
        | none => env.defaultUserAgent
      match formatParams sp.parameters user_agent stream_url with
      | none => .error .formatError
      | some parameters => .ok (sp.command :: splitWs parameters)

/-- Line 60: `input_url = stream.custom_url or stream.url` — Python `or`,
so a missing or empty override falls back to the primary URL. -/
def input_url_of (st : StreamM) : Str :=
  match st.custom_url with
  | some cu => if cu.isEmpty then st.url else cu
  | none => st.url

/-- The request orchestrator `stream_view` (lines 32-164), from channel
lookup to either an error response or the streaming response. On the
`found` allocation outcome the store gains the acquired key; on the Popen
error path (lines 133-139) the lock is released before the error response;
on an exception in the post-allocation steps the outer handler of lines
141-143 returns the error *without* releasing the lock (source behavior). -/
def stream_view (env : EnvM) (store : Store) : ViewResult :=
  match env.channel with
  | none => ⟨.errorPreparing .channelNotFound, store, [], false⟩
  | some ch =>
    match ch.streams with
    | [] => ⟨.noStreamFound, store, [], false⟩
    | st :: _ =>
      let input_url := input_url_of st
      let scan := allocLoop store (candidatesOf st.profilesOfAccount)
      match scan.1 with
      | .attrError => ⟨.errorPreparing .noneAttr, store, allocOps store scan.2, false⟩
      | .exhausted => ⟨.noAvailableProfiles, store, allocOps store scan.2, false⟩
      | .found p k =>
        let store1 := k :: store
        let ops1 := allocOps store scan.2
        match afterLockSteps env ch input_url p with
        | .error e => ⟨.errorPreparing e, store1, ops1, false⟩
        | .ok cmd =>
          match env.popen with
          | .error e => ⟨.errorStarting e, delKey store1 k, ops1 ++ [.delOp k], false⟩
          | .ok _ => ⟨.streamOk cmd k, store1, ops1, true⟩

/-! ## Process relay generator (lines 145-159) -/

/-- An exception leaving the generator's try body: `GeneratorExit` from the
consumer closing the generator (client disconnect), or an ordinary
exception raised during a read or thrown in at a yield. -/
inductive GenExc
  | genExit
  | err (e : Nat)
deriving DecidableEq

/-- How one run of the byte iteration ends: stdout end-of-stream (`read`
returns an empty chunk or the content is exhausted), an exception during
the `(n+1)`-th read, an exception thrown into the generator at its `n`-th
yield, or the consumer closing the generator after `n` yields. -/
inductive TermCause
  | eof
  | readError (n : Nat) (e : Nat)
  | throwAtYield (n : Nat) (e : Nat)
  | closed (n : Nat)
deriving DecidableEq

/-- The `while True` try body of lines 147-151: the chunks yielded and the
exception (if any) leaving the body. `read` returns the chunks in order and
an empty chunk at end-of-stream, which breaks the loop. -/
def bodyRun (chunks : List (List Nat)) : TermCause → List (List Nat) × Option GenExc
  | .eof => (chunks.takeWhile (fun c => !c.isEmpty), none)
  | .readError n e => ((chunks.takeWhile (fun c => !c.isEmpty)).take n, some (.err e))
  | .throwAtYield n e => ((chunks.takeWhile (fun c => !c.isEmpty)).take n, some (.err e))
  | .closed n => ((chunks.takeWhile (fun c => !c.isEmpty)).take n, some .genExit)

/-- What one complete run of `stream_generator` leaves behind. `escaped` is
the exception propagating out of the generator after cleanup (for `closed`
this is the `GeneratorExit` that `close()` then swallows). -/
structure RelayResult where
  yielded : List (List Nat)
  terminateRequested : Bool
  releaseCount : Nat
  escaped : Option GenExc
  ops : List LockOp
  store : Store

/-- `proc.terminate()` may itself raise (`termRaises`). -/
def terminateProc (termRaises : Option Nat) : Except Nat Unit :=
  match termRaises with
  | some e => .error e
  | none => .ok ()

/-- The generator `stream_generator` of lines 145-159: the try body runs
until `cause` ends it, then the `finally` block runs — `proc.terminate()`
inside its own `try/except Exception` (lines 153-157, a raising terminate
is logged and swallowed), then `persistent_lock.release()` (line 158). -/
def stream_generator (k : String) (store : Store) (termRaises : Option Nat)
    (chunks : List (List Nat)) (cause : TermCause) : RelayResult :=
  let body := bodyRun chunks cause
  -- finally: try proc.terminate() except Exception: (logged, swallowed) —
  -- whether terminateProc errors or not, the pending body exception is what
  -- continues; the termination error never replaces or joins it
  let afterTerminate := match terminateProc termRaises with
    | .error _ => body.2
    | .ok _ => body.2
  -- then persistent_lock.release(): spec 4.1, idempotent and non-raising
  { yielded := body.1
    terminateRequested := true
    releaseCount := 1
    escaped := afterTerminate
    ops := [.delOp k]
    store := delKey store k }

/-- A complete request: `stream_view`, then — if a streaming response was
returned — one full run of its generator. Returns the whole ordered Lock
Store operation trace and the final store. -/
def fullRun (env : EnvM) (store : Store) (cause : TermCause)
    (termRaises : Option Nat) : List LockOp × Store :=
  let v := stream_view env store
  match v.resp with
  | .streamOk _ k =>
    let r := stream_generator k v.store termRaises env.stdoutChunks cause
    (v.ops ++ r.ops, r.store)
  | _ => (v.ops, v.store)

/-! ## Canonical attempt order and characterization lemmas -/

/-- The key sequence a profile's inner loop attempts: `remaining` keys with
ascending slot indices starting at `idx`. -/
def keysFrom (pid : Nat) : Nat → Nat → List String
  | _, 0 => []
  | idx, r + 1 => lockKey pid idx :: keysFrom pid (idx + 1) r

/-- The attempt sequence of one profile: its slot keys `1..max_streams`
in ascending order, paired with the profile. -/
def profAttempts (p : Profile) : List (Profile × String) :=
  (keysFrom p.id 1 p.max_streams).map fun k => (p, k)

/-- The full canonical attempt sequence of a profile list: active profiles
in order, each contributing its slot keys in ascending order. -/
def activeAttempts (ps : List Profile) : List (Profile × String) :=
  (ps.filter (·.is_active)).flatMap profAttempts

/-- The canonical attempt sequence of the allocator for an account whose
first default profile is `d`: `d` first, then the non-default profiles in
listed order, actives only, slot keys ascending. -/
def canonicalAttempts (d : Profile) (ps : List Profile) : List (Profile × String) :=
  activeAttempts (d :: ps.filter (fun p => !p.is_default))

lemma takeWhile_append_of_all {α} (q : α → Bool) {l1 : List α} (l2 : List α)
    (h : ∀ x ∈ l1, q x = true) :
    (l1 ++ l2).takeWhile q = l1 ++ l2.takeWhile q := by
  induction l1 with
  | nil => rfl
  | cons a l ih =>
    have ha : q a = true := h a (by simp)
    simp only [List.cons_append, List.takeWhile_cons, ha, if_true]
    rw [ih fun x hx => h x (by simp [hx])]

lemma dropWhile_append_of_all {α} (q : α → Bool) {l1 : List α} (l2 : List α)
    (h : ∀ x ∈ l1, q x = true) :
    (l1 ++ l2).dropWhile q = l2.dropWhile q := by
  induction l1 with
  | nil => rfl
  | cons a l ih =>
    have ha : q a = true := h a (by simp)
    simp only [List.cons_append, List.dropWhile_cons, ha, if_true]
    exact ih fun x hx => h x (by simp [hx])

lemma takeWhile_append_of_stop {α} (q : α → Bool) {l1 : List α} (l2 : List α)
    (h : l1.dropWhile q ≠ []) :
    (l1 ++ l2).takeWhile q = l1.takeWhile q := by
  induction l1 with
  | nil => simp [List.dropWhile] at h
  | cons a l ih =>
    cases hq : q a with
    | true =>
      have h' : l.dropWhile q ≠ [] := by
        simpa [List.dropWhile_cons, hq] using h
      simp [List.cons_append, List.takeWhile_cons, hq, ih h']
    | false => simp [List.cons_append, List.takeWhile_cons, hq]

lemma dropWhile_append_of_stop {α} (q : α → Bool) {l1 : List α} (l2 : List α)
    (h : l1.dropWhile q ≠ []) :
    (l1 ++ l2).dropWhile q = l1.dropWhile q ++ l2 := by
  induction l1 with
  | nil => simp [List.dropWhile] at h
  | cons a l ih =>
    cases hq : q a with
    | true =>
      have h' : l.dropWhile q ≠ [] := by
        simpa [List.dropWhile_cons, hq] using h
      simp [List.cons_append, List.dropWhile_cons, hq, ih h']
    | false => simp [List.cons_append, List.dropWhile_cons, hq]

/-- Characterization of the inner slot loop: it attempts exactly the held
prefix of the canonical ascending key sequence plus the first free key (if
any), and returns that first free key. -/
lemma trySlots_spec (store : Store) (pid : Nat) :
    ∀ (r idx : Nat),
      trySlots store pid idx r =
        (((keysFrom pid idx r).dropWhile (store.contains ·)).head?,
         (keysFrom pid idx r).takeWhile (store.contains ·)
           ++ ((keysFrom pid idx r).dropWhile (store.contains ·)).take 1) := by
  intro r
  induction r with
  | zero => intro idx; rfl
  | succ r ih =>
    intro idx
    simp only [trySlots, keysFrom, List.dropWhile_cons, List.takeWhile_cons]
    cases h : store.contains (lockKey pid idx) with
    | true => simp [h, ih (idx + 1)]
    | false => simp [h]

/-- Characterization of the allocator loop on a `None`-free candidate list:
it attempts exactly the held prefix of the canonical attempt sequence plus
the first free attempt, and returns that first free (profile, key) pair —
`exhausted` when every canonical key is held. -/
lemma allocLoop_spec (store : Store) :
    ∀ ps : List Profile,
      allocLoop store (ps.map some) =
        ((match (activeAttempts ps).dropWhile (fun a => store.contains a.2) with
          | [] => AllocResult.exhausted
          | a :: _ => AllocResult.found a.1 a.2),
         ((activeAttempts ps).map Prod.snd).takeWhile (store.contains ·)
           ++ (((activeAttempts ps).dropWhile (fun a => store.contains a.2)).map
                Prod.snd).take 1) := by
  intro ps
  induction ps with
  | nil => rfl
  | cons p ps ih =>
    by_cases hact : p.is_active
    · have hkeys : activeAttempts (p :: ps) = profAttempts p ++ activeAttempts ps := by
        simp [activeAttempts, List.filter_cons, hact]
      -- the held-or-free structure of this profile's key block
      have hpairsDrop : (profAttempts p).dropWhile (fun a => store.contains a.2) =
          ((keysFrom p.id 1 p.max_streams).dropWhile (store.contains ·)).map
            fun k => (p, k) := by
        simp only [profAttempts]
        rw [List.dropWhile_map]
        rfl
      have hmapsnd : (profAttempts p).map Prod.snd = keysFrom p.id 1 p.max_streams := by
        simp only [profAttempts, List.map_map]
        have : (Prod.snd ∘ fun k => ((p, k) : Profile × String)) = id := rfl
        rw [this, List.map_id]
      simp only [List.map_cons, allocLoop, hact, if_true]
      rw [trySlots_spec]
      cases hk : (keysFrom p.id 1 p.max_streams).dropWhile (store.contains ·) with
      | nil =>
        -- every key of this profile is held: the scan moves on
        have hall : ∀ x ∈ keysFrom p.id 1 p.max_streams, store.contains x = true :=
          List.dropWhile_eq_nil_iff.mp hk
        have htake : (keysFrom p.id 1 p.max_streams).takeWhile (store.contains ·) =
            keysFrom p.id 1 p.max_streams := List.takeWhile_eq_self_iff.mpr hall
        have hallPairs : ∀ a ∈ profAttempts p, store.contains a.2 = true := by
          intro a ha
          simp only [profAttempts, List.mem_map] at ha
          obtain ⟨x, hx, rfl⟩ := ha
          exact hall x hx
        have hallSnd : ∀ x ∈ (profAttempts p).map Prod.snd, store.contains x = true := by
          intro x hx
          simp only [List.mem_map] at hx
          obtain ⟨a, ha, rfl⟩ := hx
          exact hallPairs a ha
        simp only [hk, List.head?_nil, List.take_nil, List.append_nil, ih, hkeys,
          List.map_append]
        rw [dropWhile_append_of_all _ _ hallPairs,
          takeWhile_append_of_all _ _ hallSnd, hmapsnd, htake, List.append_assoc]
      | cons a rest =>
        -- this profile has a free key: the scan stops at it
        have hpairsne : (profAttempts p).dropWhile (fun x => store.contains x.2) ≠ [] := by
          rw [hpairsDrop, hk]; simp
        have hsndne : ((profAttempts p).map Prod.snd).dropWhile (store.contains ·) ≠ [] := by
          rw [hmapsnd, hk]; simp
        simp only [hk, List.head?_cons, hkeys, List.map_append]
        rw [dropWhile_append_of_stop _ _ hpairsne,
          takeWhile_append_of_stop _ _ hsndne, hpairsDrop, hk, hmapsnd]
        simp
    · have hb : p.is_active = false := by simpa using hact
      have hsame : activeAttempts (p :: ps) = activeAttempts ps := by
        simp [activeAttempts, List.filter_cons, hb]
      simp only [List.map_cons, allocLoop, hb, Bool.false_eq_true, if_false, ih, hsame]

lemma dropWhile_head_false {α} {q : α → Bool} {l t : List α} {a : α}
    (h : l.dropWhile q = a :: t) : q a = false := by
  induction l with
  | nil => simp [List.dropWhile] at h
  | cons b l ih =>
    rw [List.dropWhile_cons] at h
    by_cases hb : q b = true
    · simp [hb] at h; exact ih h
    · simp [hb] at h ⊢
      rw [← h.1]
      simpa using hb

/-- On any candidate list, a `found p k` outcome means: the acquired key
was free in the store, and the attempt trace is a held prefix followed by
exactly that key — one successful acquisition, as the last attempt. -/
lemma allocLoop_found (store : Store) :
    ∀ (cands : List (Option Profile)) (p : Profile) (k : String) (tr : List String),
      allocLoop store cands = (.found p k, tr) →
      store.contains k = false ∧
        ∃ pre, tr = pre ++ [k] ∧ ∀ x ∈ pre, store.contains x = true := by
  intro cands
  induction cands with
  | nil => intro p k tr h; simp [allocLoop] at h
  | cons c rest ih =>
    intro p k tr h
    match c with
    | none => simp [allocLoop] at h
    | some p' =>
      by_cases hact : p'.is_active
      · rw [allocLoop, if_pos hact, trySlots_spec] at h
        cases hk : (keysFrom p'.id 1 p'.max_streams).dropWhile (store.contains ·) with
        | nil =>
          rw [hk] at h
          simp only [List.head?_nil, List.take_nil, List.append_nil] at h
          -- scan moved on to the remaining candidates
          obtain ⟨hres, htr⟩ : allocLoop store rest =
              ((allocLoop store rest).1, (allocLoop store rest).2) ∧
              tr = (keysFrom p'.id 1 p'.max_streams).takeWhile (store.contains ·)
                ++ (allocLoop store rest).2 := by
            constructor
            · rfl
            · exact (congrArg Prod.snd h).symm
          have hres1 : (allocLoop store rest).1 = .found p k := congrArg Prod.fst h
          obtain ⟨hfree, pre, hpre, hheld⟩ :=
            ih p k (allocLoop store rest).2 (by rw [← hres1])
          refine ⟨hfree, (keysFrom p'.id 1 p'.max_streams).takeWhile (store.contains ·)
            ++ pre, ?_, ?_⟩
          · rw [htr, hpre, List.append_assoc]
          · intro x hx
            rcases List.mem_append.mp hx with hx | hx
            · exact List.mem_takeWhile_imp hx
            · exact hheld x hx
        | cons a t =>
          rw [hk] at h
          simp only [List.head?_cons, List.take_cons, List.take_nil] at h
          have hk2 : a = k := by
            have := congrArg Prod.fst h
            simp only [AllocResult.found.injEq] at this
            exact this.2
          refine ⟨?_, (keysFrom p'.id 1 p'.max_streams).takeWhile (store.contains ·), ?_, ?_⟩
          · rw [← hk2]; exact dropWhile_head_false hk
          · have := (congrArg Prod.snd h).symm
            simpa [hk2] using this
          · intro x hx
            exact List.mem_takeWhile_imp hx
      · rw [allocLoop, if_neg hact] at h
        exact ih p k tr h

/-- If the pattern matches at no suffix of the subject, the substitution
scan returns the subject unchanged. -/
lemma subScan_nomatch (m : Matcher) (t : List TItem) :
    ∀ (fuel : Nat) (s : Str), s.length < fuel →
      (∀ s', s' <:+ s → m s' = none) → subScan m t fuel s = some s := by
  intro fuel
  induction fuel with
  | zero => intro s h _; omega
  | succ fuel ih =>
    intro s hlen hnm
    match s with
    | [] => simp [subScan, hnm [] (List.suffix_refl [])]
    | c :: rest =>
      have hm : m (c :: rest) = none := hnm _ (List.suffix_refl _)
      have hrest : ∀ s', s' <:+ rest → m s' = none := fun s' hs' =>
        hnm s' (hs'.trans (List.suffix_cons c rest))
      have hlen' : rest.length < fuel := by
        simp only [List.length_cons] at hlen; omega
      simp only [subScan, hm]
      rw [ih rest hlen' hrest]
      rfl

/-- The substitution scan of line 107's fixed pattern/template pair acts
exactly as `escSpecF`: it turns every `$`-digits token into `\`-digits. -/
lemma subScan_dollar :
    ∀ (fuel : Nat) (r : Str), r.length < fuel →
      subScan dollarMatcher [.lit '\\', .ref 1] fuel r = some (escSpecF fuel r) := by
  intro fuel
  induction fuel with
  | zero => intro r h; omega
  | succ fuel ih =>
    intro r hlen
    match r with
    | [] => rfl
    | c :: rest =>
      have hlen' : rest.length < fuel := by
        simp only [List.length_cons] at hlen; omega
      by_cases hc : c = '$'
      · subst hc
        by_cases hds : (rest.takeWhile Char.isDigit).isEmpty
        · simp only [subScan, dollarMatcher, if_pos rfl, hds, if_true]
          rw [ih rest hlen']
          simp [escSpecF, hds]
        · have hdlen : (rest.drop (rest.takeWhile Char.isDigit).length).length < fuel := by
            rw [List.length_drop]; omega
          have hm : dollarMatcher ('$' :: rest) =
              some { len := 1 + (rest.takeWhile Char.isDigit).length,
                     grp := fun n => if n = 1 then some (rest.takeWhile Char.isDigit)
                            else none } := by
            simp [dollarMatcher, hds]
          have he : expandT
              (fun n => if n = 1 then some (rest.takeWhile Char.isDigit) else none)
              [.lit '\\', .ref 1] =
              some ('\\' :: (rest.takeWhile Char.isDigit ++ [])) := rfl
          have hne : ¬(1 + (rest.takeWhile Char.isDigit).length = 0) := by omega
          have hdrop_eq : ('$' :: rest).drop (1 + (rest.takeWhile Char.isDigit).length) =
              rest.drop (rest.takeWhile Char.isDigit).length := by
            rw [Nat.add_comm, List.drop_succ_cons]
          simp only [subScan, hm, he, hne, if_false, hdrop_eq, ih _ hdlen]
          simp [escSpecF, hds, List.append_nil, List.cons_append, List.append_assoc]
      · simp only [subScan, dollarMatcher, if_neg hc]
        rw [ih rest hlen']
        simp [escSpecF, hc]

/-- Line 107's escaping substitution, in closed form: it succeeds on every
replace pattern and translates each `$`-digits token into `\`-digits — the
substitution engine's group-reference syntax. -/
lemma safe_replace_eq (r : Str) : safe_replace_pattern r = some (escSpec r) := by
  have h : safe_replace_pattern r =
      subScan dollarMatcher [.lit '\\', .ref 1] (r.length + 1) r := rfl
  rw [h, subScan_dollar (r.length + 1) r (by omega)]
  rfl

/-- Releasing a key removes every copy of it: the key is absent afterwards. -/
lemma delKey_contains_self (s : Store) (k : String) : (delKey s k).contains k = false := by
  simp only [delKey, List.contains_eq_any_beq, List.any_eq_false]
  intro x hx
  rcases List.mem_filter.mp hx with ⟨-, hne⟩
  intro hbeq
  rw [eq_of_beq hbeq] at hne
  simp at hne

/-- Every pair in a canonical attempt sequence carries an active profile. -/
lemma canonicalAttempts_active (d : Profile) (ps : List Profile) :
    ∀ a ∈ canonicalAttempts d ps, a.1.is_active = true := by
  intro a ha
  simp only [canonicalAttempts, activeAttempts, List.mem_flatMap] at ha
  obtain ⟨p, hp, hap⟩ := ha
  have hact : p.is_active = true := (List.mem_filter.mp hp).2
  simp only [profAttempts, List.mem_map] at hap
  obtain ⟨x, -, rfl⟩ := hap
  exact hact

/-! ## The claims -/

/-- C1: for every termination of the relay's byte iteration — stdout
end-of-stream, an exception raised during a read or yield, or the consumer
closing the generator — the `finally` cleanup of `stream_generator` runs:
the process is asked to terminate, an exception raised by that termination
is caught and never re-raised (what escapes is exactly the body's own
pending exception, whatever the terminate outcome), and the lock's release
is called exactly once, leaving the key absent from the store. -/
theorem c1_relay_cleanup_on_every_termination
    (k : String) (store : Store) (termRaises : Option Nat)
    (chunks : List (List Nat)) (cause : TermCause) :
    (stream_generator k store termRaises chunks cause).terminateRequested = true ∧
    (stream_generator k store termRaises chunks cause).releaseCount = 1 ∧
    (stream_generator k store termRaises chunks cause).ops = [LockOp.delOp k] ∧
    (stream_generator k store termRaises chunks cause).store.contains k = false ∧
    (stream_generator k store termRaises chunks cause).escaped =
      (bodyRun chunks cause).2 := by
  refine ⟨rfl, rfl, rfl, delKey_contains_self store k, ?_⟩
  cases termRaises <;> rfl

/-- C4: at most one of any sequence of atomic acquisition attempts on a
key succeeds while the key is not released (mutual exclusion via the Lock
Store's conditional set), and releasing the key frees it for the next
acquirer. -/
theorem c4_mutual_exclusion (store : Store) (k : String) (n : Nat) :
    (acquireRun store k n).1.count true ≤ 1 ∧
    (setnx (delKey store k) k).1 = true := by
  constructor
  · have hheld : ∀ (s : Store) (m : Nat), s.contains k = true →
        (acquireRun s k m).1.count true = 0 := by
      intro s m
      induction m generalizing s with
      | zero => intro _; rfl
      | succ m ih =>
        intro hs
        simp only [acquireRun, setnx, hs, if_true, List.count_cons]
        rw [ih s hs]
        simp
    cases hc : store.contains k with
    | true => rw [hheld store n hc]; omega
    | false =>
      cases n with
      | zero => simp [acquireRun]
      | succ n =>
        simp only [acquireRun, setnx, hc, Bool.false_eq_true, if_false, List.count_cons]
        have hcons : (k :: store).contains k = true := by
          rw [List.contains_cons]
          simp
        rw [hheld (k :: store) n hcons]
        simp
  · simp only [setnx, delKey_contains_self store k, Bool.false_eq_true, if_false]

/-- C5: when the account has a default profile, the allocator scans
exactly the canonical attempt sequence — default profile first, then the
non-default profiles in listed order, actives only, each profile's slot
keys `1..max_streams` ascending, one acquisition attempt per key — stops at
the first free key, returns that (profile, key) pair, and every profile it
can select is active. -/
theorem c5_allocator_order (ps : List Profile) (store : Store) (d : Profile)
    (hd : ps.find? (·.is_default) = some d) :
    allocLoop store (candidatesOf ps) =
      ((match (canonicalAttempts d ps).dropWhile (fun a => store.contains a.2) with
        | [] => AllocResult.exhausted
        | a :: _ => AllocResult.found a.1 a.2),
       ((canonicalAttempts d ps).map Prod.snd).takeWhile (store.contains ·)
         ++ (((canonicalAttempts d ps).dropWhile (fun a => store.contains a.2)).map
              Prod.snd).take 1) ∧
    ∀ a ∈ canonicalAttempts d ps, a.1.is_active = true := by
  constructor
  · have hc : candidatesOf ps =
        ((d :: ps.filter fun p => !p.is_default).map some) := by
      simp [candidatesOf, hd]
    rw [hc, allocLoop_spec]
    rfl
  · exact canonicalAttempts_active d ps

/-- Demo values for concrete witnesses: a default active profile with two
slots, a second active profile with one slot, an inactive profile, and a
simple playback profile. -/
def demoPD : Profile :=
  { id := 1, is_default := true, is_active := true, max_streams := 2,
    search_gc := 0, searchM := litMatcher ['u'], replace_pattern := ['X'] }

def demoPA : Profile :=
  { id := 2, is_default := false, is_active := true, max_streams := 1,
    search_gc := 0, searchM := litMatcher ['u'], replace_pattern := ['X'] }

def demoPI : Profile :=
  { id := 3, is_default := false, is_active := false, max_streams := 5,
    search_gc := 0, searchM := litMatcher ['u'], replace_pattern := ['X'] }

def demoStore : Store := [lockKey 1 1, lockKey 1 2]

def demoSP : StreamProfileM :=
  { command := ['f'], parameters := [.streamUrlPh], user_agent := none }

theorem c5_witness :
    allocLoop demoStore (candidatesOf [demoPD, demoPA, demoPI]) =
      (AllocResult.found demoPA (lockKey 2 1),
       [lockKey 1 1, lockKey 1 2, lockKey 2 1]) :=
  ((c5_allocator_order [demoPD, demoPA, demoPI] demoStore demoPD rfl).1).trans rfl

/-- C6: when the account has a default profile and every canonical attempt
key is already held (all active profiles' slots occupied — vacuously, all
profiles inactive), `stream_view` returns the "No available profiles for
the stream" error, leaves the store exactly as it was (no lock newly
held), and launches no process. -/
theorem c6_exhausted_leaves_store_unchanged
    (env : EnvM) (store : Store) (ch : ChannelM) (st : StreamM) (rest : List StreamM)
    (d : Profile)
    (h1 : env.channel = some ch) (h2 : ch.streams = st :: rest)
    (hd : st.profilesOfAccount.find? (·.is_default) = some d)
    (hall : ∀ a ∈ canonicalAttempts d st.profilesOfAccount,
      store.contains a.2 = true) :
    (stream_view env store).resp = .noAvailableProfiles ∧
    (stream_view env store).store = store ∧
    (stream_view env store).launched = false := by
  have hc : candidatesOf st.profilesOfAccount =
      ((d :: st.profilesOfAccount.filter fun p => !p.is_default).map some) := by
    simp [candidatesOf, hd]
  have hdrop : (canonicalAttempts d st.profilesOfAccount).dropWhile
      (fun a => store.contains a.2) = [] := List.dropWhile_eq_nil_iff.mpr hall
  have hscan : allocLoop store (candidatesOf st.profilesOfAccount) =
      (AllocResult.exhausted,
       ((canonicalAttempts d st.profilesOfAccount).map Prod.snd).takeWhile
         (store.contains ·)) := by
    rw [hc, allocLoop_spec]
    have : activeAttempts (d :: st.profilesOfAccount.filter fun p => !p.is_default) =
        canonicalAttempts d st.profilesOfAccount := rfl
    rw [this, hdrop]
    simp
  simp only [stream_view, h1, h2, hscan]
  exact ⟨trivial, trivial, trivial⟩

def demoStream6 : StreamM :=
  { url := ['u'], custom_url := none, profilesOfAccount := [demoPD, demoPI] }

def demoChannel6 : ChannelM := { streams := [demoStream6], stream_profile := some demoSP }

def demoEnv6 : EnvM :=
  { channel := some demoChannel6, coreDefaultStreamProfile := none,
    defaultUserAgent := ['U'], popen := .ok (), stdoutChunks := [] }

theorem c6_witness :
    (stream_view demoEnv6 demoStore).resp = .noAvailableProfiles ∧
    (stream_view demoEnv6 demoStore).store = demoStore ∧
    (stream_view demoEnv6 demoStore).launched = false :=
  c6_exhausted_leaves_store_unchanged demoEnv6 demoStore demoChannel6 demoStream6 []
    demoPD rfl rfl rfl (by
      intro a ha
      have ha' : a ∈ [(demoPD, lockKey 1 1), (demoPD, lockKey 1 2)] := ha
      rcases List.mem_cons.mp ha' with rfl | h
      · rfl
      · rcases List.mem_cons.mp h with rfl | h
        · rfl
        · exact absurd h (List.not_mem_nil _))

/-- C10: when no profile of the account is marked default, the candidate
list starts with `None`; the loop body dereferences an attribute of `None`
before any acquisition attempt, the `AttributeError` is caught by the outer
handler, and the request fails with the "Error preparing stream" response —
store unchanged, no lock attempted, no process launched. (In the source the
first `None` attribute access is `profile.name` in the debug log of line
73, one line before `profile.is_active`; either way the same
`AttributeError` reaches the same handler.) -/
theorem c10_missing_default_crashes_before_any_attempt
    (env : EnvM) (store : Store) (ch : ChannelM) (st : StreamM) (rest : List StreamM)
    (h1 : env.channel = some ch) (h2 : ch.streams = st :: rest)
    (hd : st.profilesOfAccount.find? (·.is_default) = none) :
    stream_view env store = ⟨.errorPreparing .noneAttr, store, [], false⟩ := by
  have hc : candidatesOf st.profilesOfAccount =
      none :: (st.profilesOfAccount.filter fun p => !p.is_default).map some := by
    simp [candidatesOf, hd]
  simp only [stream_view, h1, h2, hc, allocLoop]
  rfl

def demoPN : Profile :=
  { id := 7, is_default := false, is_active := true, max_streams := 3,
    search_gc := 0, searchM := litMatcher ['u'], replace_pattern := ['X'] }

def demoStream10 : StreamM :=
  { url := ['u'], custom_url := none, profilesOfAccount := [demoPN] }

def demoChannel10 : ChannelM := { streams := [demoStream10], stream_profile := some demoSP }

def demoEnv10 : EnvM :=
  { channel := some demoChannel10, coreDefaultStreamProfile := none,
    defaultUserAgent := ['U'], popen := .ok (), stdoutChunks := [] }

theorem c10_witness :
    stream_view demoEnv10 [] = ⟨.errorPreparing .noneAttr, [], [], false⟩ :=
  c10_missing_default_crashes_before_any_attempt demoEnv10 [] demoChannel10
    demoStream10 [] rfl rfl rfl

/-- C3: whenever a lock was acquired, the later steps succeeded and
`subprocess.Popen` raises, `stream_view` releases the lock (the trace ends
with the delete, after the successful acquisition) and returns the
"Error starting stream" response carrying the underlying cause — the slot
is not held once the error is reported. -/
theorem c3_popen_failure_releases_lock
    (env : EnvM) (store : Store) (ch : ChannelM) (st : StreamM) (rest : List StreamM)
    (p : Profile) (k : String) (tr : List String) (cmd : List Str) (e : Nat)
    (h1 : env.channel = some ch) (h2 : ch.streams = st :: rest)
    (halloc : allocLoop store (candidatesOf st.profilesOfAccount) = (.found p k, tr))
    (hprep : afterLockSteps env ch (input_url_of st) p = .ok cmd)
    (hpopen : env.popen = .error e) :
    stream_view env store =
      ⟨.errorStarting e, delKey (k :: store) k,
       allocOps store tr ++ [.delOp k], false⟩ ∧
    (stream_view env store).store.contains k = false := by
  have hview : stream_view env store =
      ⟨.errorStarting e, delKey (k :: store) k,
       allocOps store tr ++ [.delOp k], false⟩ := by
    simp only [stream_view, h1, h2, halloc, hprep, hpopen]
  exact ⟨hview, by rw [hview]; exact delKey_contains_self _ k⟩

def demoStream3 : StreamM :=
  { url := ['u'], custom_url := none, profilesOfAccount := [demoPD, demoPA, demoPI] }

def demoChannel3 : ChannelM := { streams := [demoStream3], stream_profile := some demoSP }

def demoEnv3 : EnvM :=
  { channel := some demoChannel3, coreDefaultStreamProfile := none,
    defaultUserAgent := ['U'], popen := .error 5, stdoutChunks := [] }

theorem c3_witness :
    stream_view demoEnv3 [] =
      ⟨.errorStarting 5, delKey (lockKey 1 1 :: []) (lockKey 1 1),
       allocOps [] [lockKey 1 1] ++ [.delOp (lockKey 1 1)], false⟩ ∧
    (stream_view demoEnv3 []).store.contains (lockKey 1 1) = false :=
  c3_popen_failure_releases_lock demoEnv3 [] demoChannel3 demoStream3 []
    demoPD (lockKey 1 1) [lockKey 1 1] [['f'], ['X']] 5 rfl rfl rfl rfl rfl

/-- A default active one-slot profile whose replace pattern `$9` refers to
a group its search pattern `xyz` does not have: the URL rewrite of line 110
raises after a lock was acquired. -/
def demoP2 : Profile :=
  { id := 1, is_default := true, is_active := true, max_streams := 1,
    search_gc := 0, searchM := litMatcher ['x', 'y', 'z'],
    replace_pattern := ['$', '9'] }

def demoStream2 : StreamM :=
  { url := ['a', 'b', 'c'], custom_url := none, profilesOfAccount := [demoP2] }

def demoChannel2 : ChannelM := { streams := [demoStream2], stream_profile := some demoSP }

def demoEnv2 : EnvM :=
  { channel := some demoChannel2, coreDefaultStreamProfile := none,
    defaultUserAgent := ['U'], popen := .ok (), stdoutChunks := [] }

/-- C2 (code bug): a failure between allocation and process launch — here
the URL rewrite raising `re.error: invalid group reference` because the
replace pattern `$9` refers to a group the search pattern `xyz` does not
have — reaches the outer handler, which returns "Error preparing stream"
*without* releasing the acquired lock: the key stays in the store and the
operation trace holds the successful acquisition and no delete. -/
theorem c2_lock_leaked_on_prepare_failure :
    (stream_view demoEnv2 []).resp = .errorPreparing .reError ∧
    (stream_view demoEnv2 []).store = [lockKey 1 1] ∧
    (stream_view demoEnv2 []).ops = [.setnxOp (lockKey 1 1) 120 true] ∧
    (stream_view demoEnv2 []).launched = false :=
  ⟨rfl, rfl, rfl, rfl⟩

/-- C9: on the successful streaming path, the complete Lock Store trace of
a request plus one full generator run is the failed acquisition attempts,
the successful `SET NX` with the 120-unit timeout, and — with nothing in
between — the final delete of the relay's cleanup: the lock is never
renewed or otherwise written while streaming, however long the relay runs
(any stdout content, any termination cause). -/
theorem c9_no_lock_store_write_while_streaming
    (env : EnvM) (store : Store) (ch : ChannelM) (st : StreamM) (rest : List StreamM)
    (p : Profile) (k : String) (tr : List String) (cmd : List Str)
    (cause : TermCause) (termRaises : Option Nat)
    (h1 : env.channel = some ch) (h2 : ch.streams = st :: rest)
    (halloc : allocLoop store (candidatesOf st.profilesOfAccount) = (.found p k, tr))
    (hprep : afterLockSteps env ch (input_url_of st) p = .ok cmd)
    (hpopen : env.popen = .ok ()) :
    ∃ pre : List String, (∀ x ∈ pre, store.contains x = true) ∧
      (fullRun env store cause termRaises).1 =
        (pre.map fun key => LockOp.setnxOp key 120 false)
          ++ [LockOp.setnxOp k 120 true, LockOp.delOp k] ∧
      (fullRun env store cause termRaises).2 = delKey (k :: store) k := by
  obtain ⟨hfree, pre, htr, hheld⟩ := allocLoop_found store _ p k tr halloc
  have hview : stream_view env store =
      ⟨.streamOk cmd k, k :: store, allocOps store tr, true⟩ := by
    simp only [stream_view, h1, h2, halloc, hprep, hpopen]
  have hops : allocOps store tr =
      (pre.map fun key => LockOp.setnxOp key 120 false)
        ++ [LockOp.setnxOp k 120 true] := by
    rw [htr]
    simp only [allocOps, List.map_append, List.map_cons, List.map_nil]
    congr 1
    · exact List.map_congr_left fun x hx => by rw [hheld x hx]; rfl
    · rw [hfree]
      rfl
  refine ⟨pre, hheld, ?_, ?_⟩
  · simp only [fullRun, hview]
    rw [hops, List.append_assoc]
    rfl
  · simp only [fullRun, hview]
    rfl

def demoEnv9 : EnvM :=
  { channel := some demoChannel3, coreDefaultStreamProfile := none,
    defaultUserAgent := ['U'], popen := .ok (), stdoutChunks := [[1, 2], [3]] }

theorem c9_witness :
    ∃ pre : List String, (∀ x ∈ pre, ([] : Store).contains x = true) ∧
      (fullRun demoEnv9 [] .eof none).1 =
        (pre.map fun key => LockOp.setnxOp key 120 false)
          ++ [LockOp.setnxOp (lockKey 1 1) 120 true, LockOp.delOp (lockKey 1 1)] ∧
      (fullRun demoEnv9 [] .eof none).2 = delKey (lockKey 1 1 :: []) (lockKey 1 1) :=
  c9_no_lock_store_write_while_streaming demoEnv9 [] demoChannel3 demoStream3 []
    demoPD (lockKey 1 1) [lockKey 1 1] [['f'], ['X']] .eof none rfl rfl rfl rfl rfl

/-- C7 counterexample: search `a(b)c`, replace `$1X`, url `abc` — the
claim says the output preserves the literal `$1`; in fact the rewrite
yields `bX`: the `$1` was translated into a group reference and replaced by
the captured `b`; no `$1` survives in the output. -/
theorem c7_counterexample :
    rewrite 1 abcMatcher ['$', '1', 'X'] ['a', 'b', 'c'] = some ['b', 'X'] ∧
    ¬ (['$', '1'] <:+: ['b', 'X']) := by
  exact ⟨rfl, by decide⟩

/-- C7 amended: the escaping step of line 107 translates every `$`-digits
token of the replace pattern into the substitution engine's `\`-digits
group-reference syntax — for every replace pattern — so a `$N` token is
interpreted as a capture reference and replaced by the captured group's
text rather than preserved literally (fixed regression pair: search
`a(b)c`, replace `$1X`, url `abc` rewrites to `bX`). -/
theorem c7_amended_dollar_tokens_become_group_references :
    (∀ r : Str, safe_replace_pattern r = some (escSpec r)) ∧
    escSpec ['$', '1', 'X'] = ['\\', '1', 'X'] ∧
    rewrite 1 abcMatcher ['$', '1', 'X'] ['a', 'b', 'c'] = some ['b', 'X'] :=
  ⟨safe_replace_eq, rfl, rfl⟩

/-- C8 counterexample: url `abc`, search `xyz` (which matches at no
position of the url, as the first conjunct records for every suffix), and
replace pattern `$9`: the claim says the rewrite returns the url unchanged
for *any* replace pattern; in fact the substitution engine validates the
translated template `\9` against the pattern's zero groups before matching
and raises `re.error` — the rewrite errors instead of returning `abc`. -/
theorem c8_counterexample :
    ((List.range 4).all fun i =>
      ((litMatcher ['x', 'y', 'z']) (['a', 'b', 'c'].drop i)).isNone) = true ∧
    rewrite 0 (litMatcher ['x', 'y', 'z']) ['$', '9'] ['a', 'b', 'c'] = none := by
  exact ⟨rfl, rfl⟩

/-- C8 amended: for every input URL and search pattern matching at no
position of it, and every replace pattern whose parsed template is valid
for the pattern (group references within its group count), the rewriting
substitution returns the URL unchanged. -/
theorem c8_nomatch_is_identity_for_valid_templates
    (gc : Nat) (m : Matcher) (repl s : Str) (t : List TItem)
    (hp : parseTemplate repl = some t) (hv : validRefs gc t = true)
    (hnm : ∀ s', s' <:+ s → m s' = none) :
    reSub gc m repl s = some s := by
  simp only [reSub, hp, hv, if_true]
  exact subScan_nomatch m t (s.length + 1) s (by omega) hnm

theorem c8_amended_witness :
    reSub 0 (litMatcher ['x', 'y', 'z']) ['d', 'e', 'f'] ['a', 'b', 'c'] =
      some ['a', 'b', 'c'] :=
  c8_nomatch_is_identity_for_valid_templates 0 (litMatcher ['x', 'y', 'z'])
    ['d', 'e', 'f'] ['a', 'b', 'c'] [.lit 'd', .lit 'e', .lit 'f']
    (by decide) (by decide)
    (by
      intro s' hs'
      have hn : ¬ (['x', 'y', 'z'] : Str) <+: s' := by
        intro hpref
        have h1 : s'.length ≤ 3 := by simpa using hs'.length_le
        have h2 : 3 ≤ s'.length := by simpa using hpref.length_le
        have hs3 : s' = ['a', 'b', 'c'] := by
          have hde := List.suffix_iff_eq_drop.mp hs'
          have hlen : s'.length = 3 := le_antisymm h1 h2
          simpa [hlen] using hde
        rw [hs3] at hpref
        exact absurd hpref (by decide)
      simp only [litMatcher]
      rw [if_neg fun hb => hn (List.isPrefixOf_iff_prefix.mp hb)])

end Dispatcharr
